import Mathlib

/-!
# Verification of `process_media.py`

A shallow embedding of the transcode-orchestration pipeline in
`src/process_media.py`, together with theorems settling the specified
properties.  Each definition carries a doc comment pointing at the source
function (and line range) it embeds.  External collaborators (the terminal
progress gauge, the prober and encoder subprocesses, the filesystem) are
modelled at the interface level: filesystem and subprocess side effects
become explicit events in a trace, and the gauge's `update` applies a delta
to its last known position, as §4.2 of the design document describes the
collaborator.
-/

deriving instance DecidableEq for Except

/-- Run-time flags of `Processor` (src lines 128-170) that the core logic
branches on: `--dry-run`, `--verbose`, and `delete = not no_delete`. -/
structure Cfg where
  dryRun : Bool
  verbose : Bool
  delete : Bool
deriving DecidableEq, Repr

/-- One observable effect of the pipeline.  `log` is console/log-file output
via `Processor._log`; `mkdir`/`chmodDir` are the direct `os.makedirs` /
`os.chmod(dir, 0o775)` calls; `move`/`copyfile`/`remove`/`rmtree`/`chmodF`
are the filesystem statements routed through `Processor._run`;
`spawnProbe` is a prober subprocess (`ffprobe` / the HDR pipe);
`spawnEncoder` is the actual ffmpeg encode invocation, recorded with its
target height and the title/year metadata it receives. -/
inductive Ev
  | log (s : String)
  | mkdir (p : String)
  | chmodDir (p : String)
  | move (f t : String)
  | copyfile (f t : String)
  | remove (p : String)
  | rmtree (p : String)
  | chmodF (p : String)
  | spawnProbe (d : String)
  | spawnEncoder (f t : String) (target : Int) (title year : String)
deriving DecidableEq, Repr

/-- A statement string passed to `Processor._run` (src line 637): the five
shapes that actually occur at call sites. -/
inductive Stmt
  | move (f t : String)
  | copyfile (f t : String)
  | remove (p : String)
  | rmtree (p : String)
  | chmod664 (p : String)
deriving DecidableEq, Repr

/-- The f-string that `_run` would receive (and log when verbose). -/
def stmtString : Stmt → String
  | .move f t => "shutil.move(\"" ++ f ++ "\", \"" ++ t ++ "\")"
  | .copyfile f t => "shutil.copyfile(\"" ++ f ++ "\", \"" ++ t ++ "\")"
  | .remove p => "os.remove(\"" ++ p ++ "\")"
  | .rmtree p => "shutil.rmtree(\"" ++ p ++ "\")"
  | .chmod664 p => "os.chmod(\"" ++ p ++ "\", 0o664)"

/-- The effect `eval(statement)` performs when it runs. -/
def stmtEv : Stmt → Ev
  | .move f t => .move f t
  | .copyfile f t => .copyfile f t
  | .remove p => .remove p
  | .rmtree p => .rmtree p
  | .chmod664 p => .chmodF p

/-- Embeds `Processor._run` (src lines 637-641): the statement is logged only
when `verbose` is set, and evaluated only when `dry_run` is not. -/
def runStmt (cfg : Cfg) (s : Stmt) : List Ev :=
  (if cfg.verbose then [Ev.log (stmtString s)] else []) ++
    (if cfg.dryRun then [] else [stmtEv s])

/-- `Processor.video_resolutions` (src lines 142-147) as the `(width, height)`
pairs in dict insertion order, which is the order `.values()` iterates. -/
def video_resolutions : List (Nat × Nat) :=
  [(3840, 2160), (1920, 1080), (1280, 720), (720, 480)]

/-- The width-classification loop of `Processor._probe_file` (src lines
386-389): first rung (in table order, high to low) whose `width - 10` is
exceeded; `-1` when none is. -/
def resolutionScan (width : Nat) : List (Nat × Nat) → Int
  | [] => -1
  | (w, h) :: rest => if w - 10 < width then (h : Int) else resolutionScan width rest

/-- Embeds `Processor._probe_file` (src lines 371-391) after stream lookup:
`none` models a probe that found no video stream (early `return -1`,
src line 383); `some w` a video stream of width `w`. -/
def probe_file (videoWidth : Option Nat) : Int :=
  match videoWidth with
  | none => -1
  | some w => resolutionScan w video_resolutions

/-- Python `str.endswith` over characters. -/
def pyEndsWith (s suffix : String) : Bool :=
  suffix.data.isSuffixOf s.data

/-- Python slicing `s[:-n]` by characters. -/
def pyDropRight (s : String) (n : Nat) : String :=
  ⟨s.data.take (s.data.length - n)⟩

/-- Maximal digit prefix of a character list, with the remainder. -/
def digitRunSplit : List Char → List Char × List Char
  | [] => ([], [])
  | c :: cs =>
    if c.isDigit then
      let p := digitRunSplit cs
      (c :: p.1, p.2)
    else ([], c :: cs)

/-- Decimal value of a digit run. -/
def natOfDigits (ds : List Char) : Nat :=
  ds.foldl (fun n c => n * 10 + (c.toNat - 48)) 0

/-- One attempt of the `\(\d+\)` tail of the base-name regex at a fixed
position: succeeds when the position holds `(`, a nonempty digit run, `)`
(a greedy `\d+` can only complete with the maximal run, since any shorter
run is followed by another digit), returning the matched length. -/
def parenMatchAt : List Char → Option Nat
  | '(' :: rest =>
    match digitRunSplit rest with
    | ([], _) => none
    | (ds, ')' :: _) => some (ds.length + 2)
    | _ => none
  | _ => none

/-- Greedy `re.match(r"(.*\(\d+\))", s)` (src line 288): the group ends at
the rightmost `(digits)` occurrence; scanning prefers a match further right. -/
def baseNameScan : List Char → Option (List Char)
  | [] => none
  | c :: cs =>
    match baseNameScan cs with
    | some suffix => some (c :: suffix)
    | none =>
      match parenMatchAt (c :: cs) with
      | some len => some (List.take len (c :: cs))
      | none => none

/-- `base_name` extraction of `_process_movie_file` (src line 288):
`re.match(r"(.*\(\d+\))", filename).group(1)`; `none` models the
`AttributeError` crash on a filename with no `(digits)` group. -/
def base_name_of (filename : String) : Option String :=
  (baseNameScan filename.data).map (fun l => ⟨l⟩)

/-- One attempt of the `' ' \( \d{4} \)` tail of the title regex at a fixed
position: exactly four digits must be followed by `)`. -/
def titleMatchAt : List Char → Option (List Char)
  | ' ' :: '(' :: a :: b :: c :: d :: ')' :: _ =>
    if a.isDigit && b.isDigit && c.isDigit && d.isDigit then some [a, b, c, d]
    else none
  | _ => none

/-- Greedy `re.match(r"(.*) \((\d{4})\)", s)` (src line 410): group 1 is
everything before the rightmost ` (dddd)` occurrence, group 2 the digits. -/
def titleScan : List Char → Option (List Char × List Char)
  | [] => none
  | c :: cs =>
    match titleScan cs with
    | some p => some (c :: p.1, p.2)
    | none =>
      match titleMatchAt (c :: cs) with
      | some y => some ([], y)
      | none => none

/-- `title_parse` of `_process_resolution` (src line 410) as raw groups. -/
def title_parse (base_name : String) : Option (String × String) :=
  (titleScan base_name.data).map (fun p => (⟨p.1⟩, ⟨p.2⟩))

/-- Title/year extraction of `_process_resolution` (src lines 410-414),
including the definite-article rewrite: a title ending in `", The"` has the
article moved to the front (`title[:-5]` prefixed with `"The "`); `none`
models the `AttributeError` crash on a malformed base name. -/
def parse_title_year (base_name : String) : Option (String × String) :=
  match title_parse base_name with
  | none => none
  | some (t, y) =>
    some ((if pyEndsWith t ", The" then "The " ++ pyDropRight t 5 else t), y)

/-- One attempt of `re.search(r"(\d+)p.mp4", ...)` at a fixed position:
a nonempty digit run, then `p`, any character, `m`, `p`, `4`. -/
def resMatchAt (cs : List Char) : Option Nat :=
  match digitRunSplit cs with
  | ([], _) => none
  | (ds, 'p' :: _ :: 'm' :: 'p' :: '4' :: _) => some (natOfDigits ds)
  | _ => none

/-- Leftmost `re.search(r"(\d+)p.mp4", s)` (src line 244). -/
def resSearch : List Char → Option Nat
  | [] => none
  | c :: cs =>
    match resMatchAt (c :: cs) with
    | some n => some n
    | none => resSearch cs

/-- First loop of `_find_highest_res` (src lines 239-247): scan the files in
order, breaking at the first name not ending in `p.mp4` (which becomes the
provisional master); only suffixed names scanned before that break raise
`highest_res`.  A suffixed name on which the `(\d+)p.mp4` search fails makes
Python raise `AttributeError`, modelled as `Except.error`. -/
def highestScan : List String → Nat → Except Unit (Option String × Nat)
  | [], hi => .ok (none, hi)
  | f :: rest, hi =>
    if ¬ (pyEndsWith f "p.mp4") then .ok (some f, hi)
    else
      match resSearch f.data with
      | none => .error ()
      | some r => highestScan rest (if r > hi then r else hi)

/-- Embeds `_find_highest_res` (src lines 238-256): after the first scan, if
any resolution was seen (`highest_res > 0`) the master is re-selected as the
first file ending in `"{highest_res}p.mp4"`; otherwise the provisional master
stands.  `none` models the `AttributeError`/`UnboundLocalError` crash paths. -/
def find_highest_res (files : List String) : Option String :=
  match highestScan files 0 with
  | .error _ => none
  | .ok (master0, hi) =>
    if hi > 0 then
      match files.find? (fun f => pyEndsWith f (toString hi ++ "p.mp4")) with
      | some m => some m
      | none => master0
    else master0

/-- Embeds the body of `_check_movies` (src lines 220-236) for one directory
group: with more than one file the master is chosen by `_find_highest_res`,
removed from the sibling list (`list.remove` drops the first occurrence), and
every remaining sibling is deleted through `_run` when delete-mode is on.
Returns the path queued for processing plus the emitted events; `none` models
the crash paths of `_find_highest_res` (and the impossible empty group). -/
def check_group (cfg : Cfg) (root_path : String) (files : List String) :
    Option (String × List Ev) :=
  if files.length > 1 then
    match find_highest_res files with
    | none => none
    | some master =>
      some (root_path ++ "/" ++ master,
        ((files.erase master).map (fun f =>
          if cfg.delete then runStmt cfg (.remove (root_path ++ "/" ++ f)) else [])).flatten)
  else
    match files with
    | [] => none
    | f :: _ => some (root_path ++ "/" ++ f, [])


/-- The width configured for a ladder height (`video_resolutions[target]`,
src line 536). -/
def rung_width (target : Int) : Nat :=
  match video_resolutions.find? (fun wh => decide ((wh.2 : Int) = target)) with
  | some wh => wh.1
  | none => 0

/-- Orchestration context shared by the per-file methods: the flags plus the
path pieces computed at the top of `_process_movie_file` (src lines 267-277). -/
structure Env where
  cfg : Cfg
  output_path : String
  base_input : String
  file_folder : String
deriving DecidableEq, Repr

/-- Embeds `_encode_video` (src lines 535-635) at the level of its external
effects: the HDR pipe and the audio/duration probes run unconditionally;
then, under the progress channel, the built ffmpeg invocation is spawned —
unless dry-run, in which case its compiled arguments are logged instead
(src lines 611-612; the `--fake` bar animation is elided, as are the
verbose-only echo lines).  The spawned encode records the target rung and
the title/year metadata it receives. -/
def encode_video (cfg : Cfg) (from_path to_path : String) (target : Int)
    (title release_year : String) : List Ev :=
  [Ev.spawnProbe "check_hdr", Ev.spawnProbe "get_audio_track",
   Ev.log ("    encode: " ++ from_path ++ " -> " ++ to_path),
   Ev.spawnProbe "probe_duration"] ++
  (if cfg.dryRun then
    [Ev.log ("ffmpeg -i " ++ from_path ++ " -vf scale=" ++
      toString (rung_width target) ++ ":-2 -metadata title=" ++ title ++
      " -metadata year=" ++ release_year ++ " " ++ to_path)]
  else [Ev.spawnEncoder from_path to_path target title release_year])

/-- Embeds `_process_resolution` (src lines 393-458).  `is_processed` checks
the working file for the marker of the CURRENT resolution; the title/year
parse happens before the skip test (so a malformed base name crashes either
way, modelled as `.error`); a rung with the marker present and
`current = target` returns `(target, source_file)` untouched with no events
(src lines 426-427); otherwise the encode runs, then the source is filed:
into `<output>/<library>/<folder>` when `is_processed` (library `2160p` when
the current resolution is 2160, else `main`), into `<output>/orig/<folder>`
when the target is the 2160 rung, and deleted otherwise in delete-mode. -/
def process_resolution (env : Env) (target current : Int)
    (source_file base_name : String) : Except String (Int × String × List Ev) :=
  let is_processed := pyEndsWith source_file (" - " ++ toString current ++ "p.mp4")
  let output_file := base_name ++ " - " ++ toString target ++ "p.mp4"
  let from_path := env.base_input ++ "/" ++ source_file
  let to_path := env.base_input ++ "/" ++ output_file
  match parse_title_year base_name with
  | none => .error "AttributeError: title_parse"
  | some (title, release_year) =>
    if is_processed = true ∧ current = target then
      .ok (target, source_file, [])
    else
      let evs1 := encode_video env.cfg from_path to_path target title release_year
      let library_name := if current = 2160 then "2160p" else "main"
      let base_output := env.output_path ++ "/" ++ library_name ++ "/" ++ env.file_folder
      let orig_output := env.output_path ++ "/orig/" ++ env.file_folder
      let mk : List Ev :=
        if is_processed = true then [Ev.mkdir base_output, Ev.chmodDir base_output]
        else if target = 2160 then [Ev.mkdir orig_output, Ev.chmodDir orig_output]
        else []
      let source_to_path :=
        if is_processed = true then base_output ++ "/" ++ source_file
        else orig_output ++ "/" ++ source_file
      let relocate : List Ev :=
        if env.cfg.delete then
          if is_processed = true ∨ target = 2160 then
            runStmt env.cfg (.move from_path source_to_path) ++
              runStmt env.cfg (.chmod664 source_to_path)
          else runStmt env.cfg (.remove from_path)
        else
          if is_processed = true ∨ target = 2160 then
            runStmt env.cfg (.copyfile from_path source_to_path) ++
              runStmt env.cfg (.chmod664 source_to_path)
          else []
      .ok (target, output_file, evs1 ++ mk ++ relocate)

/-- The per-rung loop of `_process_movie_file` (src lines 295-310): iterate
the rung table in order; the 480 rung is skipped outright when the ORIGINAL
resolution exceeds 480 (`elif`, so that test wins even when the current
resolution reaches it); otherwise a rung executes when the CURRENT resolution
is at least the target, threading the current resolution and working file
through `_process_resolution`'s return value. -/
def rung_loop (env : Env) (original : Int) (base_name : String) :
    List (Nat × Nat) → Int → String → Except String (Int × String × List Ev)
  | [], current, source_file => .ok (current, source_file, [])
  | wh :: rest, current, source_file =>
    if (wh.2 : Int) = 480 ∧ original > 480 then
      rung_loop env original base_name rest current source_file
    else if current ≥ (wh.2 : Int) then
      match process_resolution env (wh.2 : Int) current source_file base_name with
      | .error e => .error e
      | .ok (c', s', evs) =>
        match rung_loop env original base_name rest c' s' with
        | .error e => .error e
        | .ok (c'', s'', evs') => .ok (c'', s'', evs ++ evs')
    else
      rung_loop env original base_name rest current source_file

/-- The rung-selection structure of the same loop (src lines 295-310),
projected to the sequence of target heights that execute.  It mirrors the
loop branch for branch; the threaded `current` becomes the executed target,
exactly as `_process_resolution` returns `target_resolution` on both of its
paths (src lines 427 and 458). -/
def plan_loop (original : Int) : List (Nat × Nat) → Int → List Int
  | [], _ => []
  | wh :: rest, current =>
    if (wh.2 : Int) = 480 ∧ original > 480 then plan_loop original rest current
    else if current ≥ (wh.2 : Int) then
      (wh.2 : Int) :: plan_loop original rest (wh.2 : Int)
    else plan_loop original rest current

/-- The ladder plan for a probed source resolution: which encode steps the
loop of `_process_movie_file` executes, in order. -/
def ladder_plan (original : Int) : List Int :=
  plan_loop original video_resolutions original

/-- Embeds `_process_movie_file` (src lines 267-323): the `-1` probe sentinel
returns immediately with no action (src lines 281-282); otherwise the base
name is parsed (`AttributeError` on failure), the rung loop runs, and the
final working file is filed into `<output>/main/<folder>` —
`makedirs`/`chmod` called directly, the move-or-copy, file chmod and input
directory removal routed through `_run`.  Console echo lines outside `_run`
are elided. -/
def process_movie_file (env : Env) (filename : String) (original : Int) :
    Except String (List Ev) :=
  if original = -1 then .ok []
  else
    match base_name_of filename with
    | none => .error "AttributeError: base_name"
    | some base_name =>
      match rung_loop env original base_name video_resolutions original filename with
      | .error e => .error e
      | .ok (_, source_file, evs) =>
        let base_output := env.output_path ++ "/main/" ++ env.file_folder
        let from_path := env.base_input ++ "/" ++ source_file
        let to_path := base_output ++ "/" ++ source_file
        .ok (evs ++ [Ev.mkdir base_output, Ev.chmodDir base_output] ++
          (if env.cfg.delete then runStmt env.cfg (.move from_path to_path)
           else runStmt env.cfg (.copyfile from_path to_path)) ++
          runStmt env.cfg (.chmod664 to_path) ++
          (if env.cfg.delete then runStmt env.cfg (.rmtree env.base_input) else []))


/-- State of the external progress gauge: position, configured length, and
display label. -/
structure Bar where
  pos : Int
  length : Int
  label : String
deriving DecidableEq, Repr

/-- Modelled from the spec: the gauge itself is an out-of-scope collaborator
(`from pacbar import pacbar`, src line 19); §4.2 specifies its interface —
`out_time_ms` "drives a progress gauge by delta update against the last
known position" — so `update(delta)` adds the delta to the position. -/
def bar_update (b : Bar) (delta : Int) : Bar :=
  { b with pos := b.pos + delta }

/-- A decoded progress record, as split into `key`/`value` by
`_do_watch_progress` (src lines 52-58): `out_time_ms` carries `int(value)`. -/
inductive PEvent
  | out_time_ms (v : Int)
  | progress_end
  | speed (label : String)
  | other
deriving DecidableEq, Repr

/-- Embeds the `handler` closure of `show_progress` (src lines 105-122):
an `out_time_ms` event updates the bar by `out_time - bar.pos`;
`progress=end` forces the bar to its length; `speed` replaces the label
unless still in the initial seeking phase.  The wall-clock-throttled
`proc._log` side channel (src lines 112-116) is elided. -/
def progress_handler (b : Bar) : PEvent → Bar
  | .out_time_ms v => bar_update b (v - b.pos)
  | .progress_end => bar_update b (b.length - b.pos)
  | .speed s => if b.label ≠ "seeking..." ∨ b.pos > 0 then { b with label := s } else b
  | .other => b

/-- Gauge positions observed after each successive event. -/
def positions_after (b : Bar) : List PEvent → List Int
  | [] => []
  | e :: evs => (progress_handler b e).pos :: positions_after (progress_handler b e) evs

/-- Externally visible steps of one progress-channel lifecycle. -/
inductive ChanEv
  | mkdtemp
  | bindSock
  | listenSock
  | spawnWatcher
  | body
  | killChild
  | closeSock
  | rmtreeTmp
deriving DecidableEq, Repr

/-- How one use of the `_watch_progress` context manager ends: the body
returns, raises an `Exception`, or the job is cancelled (`GeneratorExit`,
which `except Exception` at src line 89 does not catch). -/
inductive Outcome
  | normal
  | error
  | cancelled
deriving DecidableEq, Repr

/-- Embeds `_tmpdir_scope` (src lines 32-38): `mkdtemp`, then the body under
`try/finally shutil.rmtree`, so the removal runs on every exit. -/
def tmpdir_scope (body : List ChanEv) : List ChanEv :=
  ChanEv.mkdtemp :: (body ++ [ChanEv.rmtreeTmp])

/-- Embeds `contextlib.closing(sock)` (src line 83): the body, then
`sock.close()` on every exit. -/
def closing_scope (body : List ChanEv) : List ChanEv :=
  body ++ [ChanEv.closeSock]

/-- Embeds `_watch_progress` (src lines 64-91): inside the tmpdir scope and
the closing scope, the socket is bound and listened on, the watcher greenlet
spawned, and the caller's body runs at the `yield`; an `Exception` raised
there kills the watcher and re-raises, while cancellation propagates
uncaught; either way the enclosing scopes perform their cleanup. -/
def watch_progress_trace (o : Outcome) : List ChanEv :=
  tmpdir_scope (closing_scope
    ([ChanEv.bindSock, ChanEv.listenSock, ChanEv.spawnWatcher, ChanEv.body] ++
      (match o with
        | .normal => []
        | .error => [ChanEv.killChild]
        | .cancelled => [])))

/-- One entry of ffprobe's audio-stream listing
(`-select_streams a -show_entries stream=index:stream_tags=language`,
src line 502): the global `index` field when present, and `tags.language`
when tagged. -/
structure AStream where
  idx : Option Nat
  language : Option String
deriving DecidableEq, Repr

/-- The scan loop of `_get_audio_track` (src lines 518-526), threading the
`(track, language)` pair: a stream tagged `eng`, or the stream at enumerate
position 0, captures `track = stream["index"] - 1` (position + 1 standing in
for a missing `index` field) together with its raw language tag; the loop
breaks only when the captured language is `eng`. -/
def audio_loop : Nat → List AStream → Int × Option String → Int × Option String
  | _, [], acc => acc
  | i, s :: rest, acc =>
    if s.language = some "eng" ∨ i = 0 then
      let track : Int := (s.idx.getD (i + 1) : Int) - 1
      if s.language = some "eng" then (track, s.language)
      else audio_loop (i + 1) rest (track, s.language)
    else audio_loop (i + 1) rest acc

/-- Embeds `_get_audio_track` (src lines 500-533).  `none` models the
`JSONDecodeError` fallback (src lines 515-516), which keeps `track = 0` and
lets the language default to `eng`; otherwise the scan loop runs, a `None`
language defaults to `eng` (src lines 528-529), and a remaining non-`eng`
language is logged as a mismatch (src lines 531-532).  Returns
`(language, track, mismatchLogged)`. -/
def get_audio_track (streams : Option (List AStream)) : String × Int × Bool :=
  match streams with
  | none => ("eng", 0, false)
  | some l =>
    let r := audio_loop 0 l (0, none)
    let language := r.2.getD "eng"
    (language, r.1, language != "eng")

/-- The successful trace of a per-file run (empty for the crash paths). -/
def okTrace : Except String (List Ev) → List Ev
  | .ok evs => evs
  | .error _ => []

/-- Whether a trace spawns an encode for a given target rung. -/
def encodesRung (evs : List Ev) (target : Int) : Bool :=
  evs.any fun e =>
    match e with
    | Ev.spawnEncoder _ _ t _ _ => t == target
    | _ => false

/-- Whether a trace moves a given source path somewhere. -/
def movesFile (evs : List Ev) (f : String) : Bool :=
  evs.any fun e =>
    match e with
    | Ev.move f' _ => f' == f
    | _ => false

/-- The effects suppressed by `dry_run`: every statement routed through
`_run` (src lines 637-641) plus the encoder spawn (src lines 611-626). -/
def isDeferredOp : Ev → Bool
  | .move _ _ => true
  | .copyfile _ _ => true
  | .remove _ => true
  | .rmtree _ => true
  | .chmodF _ => true
  | .spawnEncoder _ _ _ _ _ => true
  | _ => false

/-- Evaluation of the width classifier over the concrete rung table. -/
theorem probe_file_eval (w : Nat) :
    probe_file (some w) =
      if 3830 < w then 2160
      else if 1910 < w then 1080
      else if 1270 < w then 720
      else if 710 < w then 480
      else -1 := by
  norm_num [probe_file, resolutionScan, video_resolutions]

/-- C7: the resolution classifier maps a stream width to the highest rung
whose configured width minus 10 pixels lies strictly below it (the fold
computes the maximum qualifying height, `-1` when no rung qualifies), and it
is monotone: a larger width never classifies to a lower rung. -/
theorem c7_classifier_highest_qualifying_and_monotone :
    (∀ w : Nat,
      probe_file (some w) =
        ((video_resolutions.filter (fun wh => decide (wh.1 - 10 < w))).map
          (fun wh => (wh.2 : Int))).foldr max (-1)) ∧
    (∀ w₁ w₂ : Nat, w₁ ≤ w₂ → probe_file (some w₁) ≤ probe_file (some w₂)) := by
  constructor
  · intro w
    rw [probe_file_eval]
    by_cases h1 : 3830 < w <;> by_cases h2 : 1910 < w <;>
      by_cases h3 : 1270 < w <;> by_cases h4 : 710 < w <;>
      norm_num [video_resolutions, h1, h2, h3, h4]
  · intro w₁ w₂ h
    rw [probe_file_eval, probe_file_eval]
    split_ifs <;> omega

/-- Instance of the C7 theorem: monotonicity between a borderline 1080p
width and a full 2160p width. -/
theorem c7_classifier_witness :
    probe_file (some 1915) ≤ probe_file (some 3840) :=
  c7_classifier_highest_qualifying_and_monotone.2 1915 3840 (by norm_num)

/-- C3 counterexample: the claim's example `plan(720) = [720, 480]` fails on
the code — 720 > 480, so the 480 rung is excluded and the plan is `[720]`. -/
theorem c3_plan_720_counterexample :
    ladder_plan 720 = [720] ∧ ladder_plan 720 ≠ [720, 480] := by decide

/-- C3 amended: for every source resolution R among the four rungs, the plan
(a pure function of R, hence deterministic) never contains a rung above R,
is strictly descending, contains every non-480 rung at or below R, and
contains the 480 rung exactly when R ≤ 480; thus `plan(2160) =
[2160, 1080, 720]` but `plan(720) = [720]`. -/
theorem c3_ladder_plan_amended :
    (∀ r ∈ ([2160, 1080, 720, 480] : List Int),
      (∀ h ∈ ladder_plan r, h ≤ r) ∧
      (ladder_plan r).Pairwise (· > ·) ∧
      ((480 : Int) ∈ ladder_plan r ↔ r ≤ 480) ∧
      (∀ wh ∈ video_resolutions, (wh.2 : Int) ≤ r → (wh.2 : Int) ≠ 480 →
        (wh.2 : Int) ∈ ladder_plan r)) ∧
    ladder_plan 2160 = [2160, 1080, 720] ∧ ladder_plan 720 = [720] := by
  decide

/-- Instance of the C3 amended theorem: the 480 rung is in the plan of a
480p source. -/
theorem c3_ladder_plan_witness :
    (480 : Int) ∈ ladder_plan 480 ↔ (480 : Int) ≤ 480 :=
  (c3_ladder_plan_amended.1 480 (by decide)).2.2.1

/-- C10: a video stream whose width is at most 710 classifies to the same
`-1` sentinel as a missing video stream, and `_process_movie_file` then
returns at once — no encode, no relocation, no error, exactly the no-video
path. -/
theorem c10_low_width_skipped_as_no_video (w : Nat) (hw : w ≤ 710) :
    probe_file (some w) = -1 ∧
    probe_file (some w) = probe_file none ∧
    ∀ (env : Env) (filename : String),
      process_movie_file env filename (probe_file (some w)) = .ok [] := by
  have h : probe_file (some w) = -1 := by rw [probe_file_eval]; split_ifs <;> omega
  refine ⟨h, by rw [h]; rfl, ?_⟩
  intro env filename
  rw [h]
  simp [process_movie_file]

/-- Instance of the C10 theorem at the boundary width 710. -/
theorem c10_low_width_witness :
    probe_file (some 710) = -1 ∧
    process_movie_file ⟨⟨false, false, true⟩, "out", "in", "Movies"⟩ "x"
        (probe_file (some 710)) = .ok [] :=
  ⟨(c10_low_width_skipped_as_no_video 710 (by norm_num)).1,
    (c10_low_width_skipped_as_no_video 710 (by norm_num)).2.2 _ _⟩

/-- C1 counterexample: the handler applies the raw delta `out_time - bar.pos`
with no clamping (src line 110), so the event values 1000, 500, 1500 drive
the gauge to positions 1000, 500, 1500 — the position regresses, refuting
both the claimed clamping and the claimed position sequence 1000, 1000,
1500. -/
theorem c1_gauge_regression_counterexample :
    positions_after ⟨0, 1000000, ""⟩
        [PEvent.out_time_ms 1000, PEvent.out_time_ms 500, PEvent.out_time_ms 1500] =
      [1000, 500, 1500] ∧
    ([1000, 500, 1500] : List Int) ≠ [1000, 1000, 1500] ∧
    ¬ ((1000 : Int) ≤ 500) := by
  refine ⟨rfl, by decide, by decide⟩

/-- C1 amended: each `out_time_ms` event sets the gauge position to exactly
the event's value — the update is the unclamped delta `newValue - position` —
so the position history equals the raw event value sequence and is
non-decreasing only when the event sequence itself is. -/
theorem c1_gauge_tracks_raw_out_time :
    (∀ (b : Bar) (v : Int), (progress_handler b (PEvent.out_time_ms v)).pos = v) ∧
    (∀ (b : Bar) (vs : List Int),
      positions_after b (vs.map PEvent.out_time_ms) = vs) := by
  have hstep : ∀ (b : Bar) (v : Int),
      (progress_handler b (PEvent.out_time_ms v)).pos = v := by
    intro b v
    simp only [progress_handler, bar_update]
    omega
  refine ⟨hstep, ?_⟩
  intro b vs
  induction vs generalizing b with
  | nil => rfl
  | cons v vs ih =>
    simp only [List.map, positions_after, ih]
    rw [hstep]

/-- C9: on every exit path of the progress-watching scope — normal return,
an exception raised by the foreground encode, or cancellation — the
listening socket is closed and the backing temporary directory is removed,
the removal being the final step. -/
theorem c9_channel_cleanup_on_every_exit :
    (ChanEv.closeSock ∈ watch_progress_trace .normal ∧
      ChanEv.rmtreeTmp ∈ watch_progress_trace .normal ∧
      (watch_progress_trace .normal).getLast? = some ChanEv.rmtreeTmp) ∧
    (ChanEv.closeSock ∈ watch_progress_trace .error ∧
      ChanEv.rmtreeTmp ∈ watch_progress_trace .error ∧
      (watch_progress_trace .error).getLast? = some ChanEv.rmtreeTmp) ∧
    (ChanEv.closeSock ∈ watch_progress_trace .cancelled ∧
      ChanEv.rmtreeTmp ∈ watch_progress_trace .cancelled ∧
      (watch_progress_trace .cancelled).getLast? = some ChanEv.rmtreeTmp) := by
  decide

/-- C8: `"Movie, The (2020)"` parses to display title `"The Movie"` with
year `"2020"`; base-name extraction ignores a trailing ` - 1080p.mp4`
marker; and the article rewrite reaches only the encoder metadata — the
produced on-disk name keeps the `"Movie, The (2020) - 720p.mp4"` form. -/
theorem c8_title_parsing_and_article_rewrite :
    parse_title_year "Movie, The (2020)" = some ("The Movie", "2020") ∧
    base_name_of "Movie (2020) - 1080p.mp4" = some "Movie (2020)" ∧
    base_name_of "Movie (2020).mkv" = some "Movie (2020)" ∧
    parse_title_year "Movie (2020)" = some ("Movie", "2020") ∧
    process_resolution ⟨⟨false, false, true⟩, "out", "in", "Movies"⟩ 720 1080
        "Movie, The (2020).mkv" "Movie, The (2020)" =
      .ok (720, "Movie, The (2020) - 720p.mp4",
        [Ev.spawnProbe "check_hdr", Ev.spawnProbe "get_audio_track",
          Ev.log "    encode: in/Movie, The (2020).mkv -> in/Movie, The (2020) - 720p.mp4",
          Ev.spawnProbe "probe_duration",
          Ev.spawnEncoder "in/Movie, The (2020).mkv"
            "in/Movie, The (2020) - 720p.mp4" 720 "The Movie" "2020",
          Ev.remove "in/Movie, The (2020).mkv"]) := by
  refine ⟨rfl, rfl, rfl, rfl, rfl⟩

/-- C5 counterexample: with siblings `["Movie.mkv", "Movie - 1080p.mp4"]` a
file matching the `<NNN>p.mp4` suffix exists, yet the survivor is the
non-suffixed `Movie.mkv`: the selection scan breaks at the first
non-suffixed name before ever seeing the suffixed sibling. -/
theorem c5_dedup_counterexample :
    find_highest_res ["Movie.mkv", "Movie - 1080p.mp4"] = some "Movie.mkv" ∧
    (some "Movie.mkv" : Option String) ≠ some "Movie - 1080p.mp4" := by
  refine ⟨rfl, by decide⟩

/-- C5 amended: the survivor is the highest `<NNN>p.mp4` resolution found
only among the files scanned before the first non-suffixed name: any
non-suffixed file that comes first is selected outright (even when suffixed
siblings exist); a suffixed file seen before a later non-suffixed one wins
over suffixed files after it; when all siblings are suffixed, the highest
wins and the others are deleted in delete-mode. -/
theorem c5_dedup_amended :
    (∀ (f : String) (files : List String), pyEndsWith f "p.mp4" = false →
      find_highest_res (f :: files) = some f) ∧
    check_group ⟨false, false, true⟩ "root" ["Movie - 1080p.mp4", "Movie - 720p.mp4"] =
      some ("root/Movie - 1080p.mp4", [Ev.remove "root/Movie - 720p.mp4"]) ∧
    find_highest_res ["Movie - 720p.mp4", "Movie.mkv", "Movie - 1080p.mp4"] =
      some "Movie - 720p.mp4" := by
  refine ⟨?_, rfl, rfl⟩
  intro f files h
  simp [find_highest_res, highestScan, h]

/-- Instance of the C5 amended theorem: a leading non-suffixed file is
selected. -/
theorem c5_dedup_witness :
    find_highest_res ["Movie.avi", "Other - 480p.mp4"] = some "Movie.avi" :=
  c5_dedup_amended.1 "Movie.avi" ["Other - 480p.mp4"] (by decide)

/-- C2: a ladder rung is executed as a no-op — `_process_resolution` returns
the working file unchanged with an empty event trace, hence no re-encode —
exactly when the working file carries the ` - <target>p.mp4` marker and the
current resolution equals the target; and re-running the pipeline over a
fully processed file at each of the four rungs spawns no encode for that
rung's height while the working file is still relocated into the output
tree (the filing step completes). -/
theorem c2_noop_rung_iff_marker_and_equal :
    (∀ (env : Env) (target current : Int) (source_file base_name t y : String),
      parse_title_year base_name = some (t, y) →
      (process_resolution env target current source_file base_name =
          .ok (target, source_file, []) ↔
        (pyEndsWith source_file (" - " ++ toString target ++ "p.mp4") = true ∧
          current = target))) ∧
    ((encodesRung (okTrace (process_movie_file
          ⟨⟨false, false, true⟩, "out", "in", "Movies"⟩
          "Movie (2020) - 480p.mp4" 480)) 480 = false ∧
      movesFile (okTrace (process_movie_file
          ⟨⟨false, false, true⟩, "out", "in", "Movies"⟩
          "Movie (2020) - 480p.mp4" 480)) "in/Movie (2020) - 480p.mp4" = true) ∧
     (encodesRung (okTrace (process_movie_file
          ⟨⟨false, false, true⟩, "out", "in", "Movies"⟩
          "Movie (2020) - 720p.mp4" 720)) 720 = false ∧
      movesFile (okTrace (process_movie_file
          ⟨⟨false, false, true⟩, "out", "in", "Movies"⟩
          "Movie (2020) - 720p.mp4" 720)) "in/Movie (2020) - 720p.mp4" = true) ∧
     (encodesRung (okTrace (process_movie_file
          ⟨⟨false, false, true⟩, "out", "in", "Movies"⟩
          "Movie (2020) - 1080p.mp4" 1080)) 1080 = false ∧
      movesFile (okTrace (process_movie_file
          ⟨⟨false, false, true⟩, "out", "in", "Movies"⟩
          "Movie (2020) - 1080p.mp4" 1080)) "in/Movie (2020) - 1080p.mp4" = true) ∧
     (encodesRung (okTrace (process_movie_file
          ⟨⟨false, false, true⟩, "out", "in", "Movies"⟩
          "Movie (2020) - 2160p.mp4" 2160)) 2160 = false ∧
      movesFile (okTrace (process_movie_file
          ⟨⟨false, false, true⟩, "out", "in", "Movies"⟩
          "Movie (2020) - 2160p.mp4" 2160)) "in/Movie (2020) - 2160p.mp4" = true)) := by
  constructor
  · intro env target current source_file base_name t y hparse
    simp only [process_resolution, hparse]
    by_cases hc :
        pyEndsWith source_file (" - " ++ toString current ++ "p.mp4") = true ∧
          current = target
    · rw [if_pos hc]
      constructor
      · intro _
        exact ⟨hc.2 ▸ hc.1, hc.2⟩
      · intro _
        rfl
    · rw [if_neg hc]
      constructor
      · intro hEq
        exfalso
        simp [encode_video] at hEq
      · rintro ⟨hm, rfl⟩
        exact absurd ⟨hm, rfl⟩ hc
  · refine ⟨⟨by decide, by decide⟩, ⟨by decide, by decide⟩,
      ⟨by decide, by decide⟩, ⟨by decide, by decide⟩⟩

/-- Instance of the C2 theorem: the 480 rung over a marker-carrying 480p
file is a no-op. -/
theorem c2_noop_rung_witness :
    process_resolution ⟨⟨false, false, true⟩, "out", "in", "Movies"⟩ 480 480
        "Movie (2020) - 480p.mp4" "Movie (2020)" =
      .ok (480, "Movie (2020) - 480p.mp4", []) :=
  (c2_noop_rung_iff_marker_and_equal.1 ⟨⟨false, false, true⟩, "out", "in", "Movies"⟩
      480 480 "Movie (2020) - 480p.mp4" "Movie (2020)" "Movie" "2020" rfl).mpr
    (by decide)

/-- Once the scan index is nonzero, a tail with no `eng`-tagged stream never
changes the accumulated `(track, language)` pair. -/
theorem audio_loop_no_eng (rest : List AStream) :
    ∀ (i : Nat) (acc : Int × Option String), i ≠ 0 →
      (∀ x ∈ rest, x.language ≠ some "eng") →
      audio_loop i rest acc = acc := by
  induction rest with
  | nil => intro i acc _ _; rfl
  | cons s rest ih =>
    intro i acc hi hall
    have hs : s.language ≠ some "eng" := hall s (by simp)
    rw [audio_loop, if_neg (not_or.mpr ⟨hs, hi⟩)]
    exact ih (i + 1) acc (by omega) (fun x hx => hall x (by simp [hx]))

/-- At any nonzero scan index, the first `eng`-tagged stream after a
non-`eng` block is captured with `track = index - 1` and breaks the loop. -/
theorem audio_loop_finds_eng (pre : List AStream) :
    ∀ (i : Nat) (acc : Int × Option String) (s : AStream) (post : List AStream),
      i ≠ 0 → (∀ x ∈ pre, x.language ≠ some "eng") → s.language = some "eng" →
      audio_loop i (pre ++ s :: post) acc =
        ((s.idx.getD (i + pre.length + 1) : Int) - 1, some "eng") := by
  induction pre with
  | nil =>
    intro i acc s post _ _ hs
    rw [List.nil_append, audio_loop, if_pos (Or.inl hs), if_pos hs, hs]
    simp
  | cons p pre ih =>
    intro i acc s post hi hall hs
    have hp : p.language ≠ some "eng" := hall p (by simp)
    rw [List.cons_append, audio_loop, if_neg (not_or.mpr ⟨hp, hi⟩)]
    rw [ih (i + 1) acc s post (by omega) (fun x hx => hall x (by simp [hx])) hs]
    rw [show i + (p :: pre).length + 1 = i + 1 + pre.length + 1 from by
      simp [List.length_cons]; omega]

/-- One unfolding of the scan loop at enumerate position 0, where the
`index == 0` disjunct always captures the stream. -/
theorem audio_loop_cons_zero (s : AStream) (rest : List AStream)
    (acc : Int × Option String) :
    audio_loop 0 (s :: rest) acc =
      if s.language = some "eng" then ((s.idx.getD 1 : Int) - 1, s.language)
      else audio_loop 1 rest ((s.idx.getD 1 : Int) - 1, s.language) := by
  rw [audio_loop, if_pos (Or.inr rfl)]

/-- C6 counterexample: one audio stream, tagged `fra`, listed with global
stream index 2 (two non-audio streams precede it in the container).  The
claim expects the fallback to return language `eng` and per-type track 0;
the code returns the raw tag `fra` and track `2 - 1 = 1`. -/
theorem c6_audio_track_counterexample :
    get_audio_track (some [⟨some 2, some "fra"⟩]) = ("fra", 1, true) ∧
    (("fra", (1 : Int), true) : String × Int × Bool) ≠ ("eng", 0, true) := by
  refine ⟨rfl, by decide⟩

/-- C6 amended: the scan prefers the first `eng`-tagged stream; with none
present it falls back to the first stream, whose language is defaulted to
`eng` only when it carries no tag at all — a non-`eng` tag is returned as-is
with the mismatch logged.  The returned track is the stream's global
`index` field minus one (enumerate position + 1 standing in when the field
is missing), not a per-type audio index; an unparseable probe yields
`("eng", 0)` with no mismatch log. -/
theorem c6_audio_track_amended :
    (∀ (s : AStream) (rest : List AStream),
      (∀ x ∈ s :: rest, x.language ≠ some "eng") →
      get_audio_track (some (s :: rest)) =
        (s.language.getD "eng", (s.idx.getD 1 : Int) - 1,
          s.language.getD "eng" != "eng")) ∧
    (∀ (pre : List AStream) (s : AStream) (post : List AStream),
      (∀ x ∈ pre, x.language ≠ some "eng") → s.language = some "eng" →
      get_audio_track (some (pre ++ s :: post)) =
        ("eng", (s.idx.getD (pre.length + 1) : Int) - 1, false)) ∧
    get_audio_track none = ("eng", 0, false) := by
  refine ⟨?_, ?_, rfl⟩
  · intro s rest hall
    have hs : s.language ≠ some "eng" := hall s (by simp)
    simp only [get_audio_track]
    rw [audio_loop_cons_zero, if_neg hs,
      audio_loop_no_eng rest 1 _ (by omega) (fun x hx => hall x (by simp [hx]))]
  · intro pre s post hall hs
    cases pre with
    | nil =>
      simp only [get_audio_track, List.nil_append]
      rw [audio_loop_cons_zero, if_pos hs, hs]
      simp
    | cons p pre' =>
      have hp : p.language ≠ some "eng" := hall p (by simp)
      simp only [get_audio_track, List.cons_append]
      rw [audio_loop_cons_zero, if_neg hp,
        audio_loop_finds_eng pre' 1 _ s post (by omega)
          (fun x hx => hall x (by simp [hx])) hs]
      have e : 1 + pre'.length + 1 = (p :: pre').length + 1 := by
        simp [List.length_cons]
        omega
      rw [e]
      simp

/-- Instance of the C6 amended theorem: the first `eng` stream after one
`fra` stream is selected with track = global index − 1. -/
theorem c6_audio_track_witness :
    get_audio_track (some [⟨some 1, some "fra"⟩, ⟨some 2, some "eng"⟩]) =
      ("eng", 1, false) :=
  c6_audio_track_amended.2.1 [⟨some 1, some "fra"⟩] ⟨some 2, some "eng"⟩ []
    (by decide) rfl

/-- Append preserves freedom from deferred operations. -/
theorem clean_append {l₁ l₂ : List Ev}
    (h₁ : ∀ e ∈ l₁, isDeferredOp e = false)
    (h₂ : ∀ e ∈ l₂, isDeferredOp e = false) :
    ∀ e ∈ l₁ ++ l₂, isDeferredOp e = false := by
  intro e he
  rcases List.mem_append.mp he with h | h
  · exact h₁ e h
  · exact h₂ e h

/-- A conditional between two clean branches is clean. -/
theorem clean_ite (P : Prop) [Decidable P] {l₁ l₂ : List Ev}
    (h₁ : ∀ e ∈ l₁, isDeferredOp e = false)
    (h₂ : ∀ e ∈ l₂, isDeferredOp e = false) :
    ∀ e ∈ (if P then l₁ else l₂), isDeferredOp e = false := by
  split
  · exact h₁
  · exact h₂

/-- In dry-run mode `_run` only ever logs. -/
theorem runStmt_dry_clean (cfg : Cfg) (s : Stmt) (h : cfg.dryRun = true) :
    ∀ e ∈ runStmt cfg s, isDeferredOp e = false := by
  intro e he
  cases hv : cfg.verbose
  · simp [runStmt, h, hv] at he
  · simp [runStmt, h, hv] at he
    subst he
    rfl

/-- In dry-run mode `_encode_video` probes and logs but spawns no encoder. -/
theorem encode_video_dry_clean (cfg : Cfg) (fp tp : String) (target : Int)
    (ti yr : String) (h : cfg.dryRun = true) :
    ∀ e ∈ encode_video cfg fp tp target ti yr, isDeferredOp e = false := by
  intro e he
  simp [encode_video, h] at he
  rcases he with h1 | h1 | h1 | h1 | h1 <;> subst h1 <;> rfl

/-- In dry-run mode one rung of `_process_resolution` emits only probe
spawns, logs and direct directory creation. -/
theorem process_resolution_dry_clean (env : Env) (target current : Int)
    (sf bn : String) (h : env.cfg.dryRun = true) (c : Int) (s : String)
    (evs : List Ev)
    (hres : process_resolution env target current sf bn = .ok (c, s, evs)) :
    ∀ e ∈ evs, isDeferredOp e = false := by
  cases hparse : parse_title_year bn with
  | none => simp [process_resolution, hparse] at hres
  | some p =>
    obtain ⟨ti, yr⟩ := p
    simp only [process_resolution, hparse] at hres
    by_cases hskip :
        pyEndsWith sf (" - " ++ toString current ++ "p.mp4") = true ∧
          current = target
    · rw [if_pos hskip] at hres
      simp only [Except.ok.injEq, Prod.mk.injEq] at hres
      obtain ⟨-, -, hevs⟩ := hres
      subst hevs
      intro e he
      simp at he
    · rw [if_neg hskip] at hres
      simp only [Except.ok.injEq, Prod.mk.injEq] at hres
      obtain ⟨-, -, hevs⟩ := hres
      subst hevs
      refine clean_append
        (clean_append (encode_video_dry_clean env.cfg _ _ _ _ _ h)
          (clean_ite _ ?_ (clean_ite _ ?_ ?_))) ?_
      · intro e he
        rcases List.mem_cons.mp he with h1 | h1
        · subst h1; rfl
        · simp at h1; subst h1; rfl
      · intro e he
        rcases List.mem_cons.mp he with h1 | h1
        · subst h1; rfl
        · simp at h1; subst h1; rfl
      · intro e he
        simp at he
      · refine clean_ite _ ?_ ?_
        · refine clean_ite _ ?_ ?_
          · exact clean_append (runStmt_dry_clean env.cfg _ h)
              (runStmt_dry_clean env.cfg _ h)
          · exact runStmt_dry_clean env.cfg _ h
        · refine clean_ite _ ?_ ?_
          · exact clean_append (runStmt_dry_clean env.cfg _ h)
              (runStmt_dry_clean env.cfg _ h)
          · intro e he
            simp at he

/-- In dry-run mode the whole rung loop is clean. -/
theorem rung_loop_dry_clean (env : Env) (original : Int) (bn : String)
    (h : env.cfg.dryRun = true) (l : List (Nat × Nat)) :
    ∀ (current : Int) (sf : String) (c : Int) (s : String) (evs : List Ev),
      rung_loop env original bn l current sf = .ok (c, s, evs) →
      ∀ e ∈ evs, isDeferredOp e = false := by
  induction l with
  | nil =>
    intro current sf c s evs hres
    simp only [rung_loop, Except.ok.injEq, Prod.mk.injEq] at hres
    obtain ⟨-, -, hevs⟩ := hres
    subst hevs
    intro e he
    simp at he
  | cons wh rest ih =>
    intro current sf c s evs hres
    rw [rung_loop] at hres
    split_ifs at hres with h480 hge
    · exact ih current sf c s evs hres
    · cases hpr : process_resolution env (wh.2 : Int) current sf bn with
      | error err =>
        rw [hpr] at hres
        simp at hres
      | ok trip =>
        obtain ⟨c', s', evs1⟩ := trip
        rw [hpr] at hres
        dsimp only at hres
        cases hrl : rung_loop env original bn rest c' s' with
        | error err =>
          rw [hrl] at hres
          simp at hres
        | ok trip2 =>
          obtain ⟨c'', s'', evs2⟩ := trip2
          rw [hrl] at hres
          simp only [Except.ok.injEq, Prod.mk.injEq] at hres
          obtain ⟨-, -, hevs⟩ := hres
          subst hevs
          exact clean_append
            (process_resolution_dry_clean env (wh.2 : Int) current sf bn h
              c' s' evs1 hpr)
            (ih c' s' c'' s'' evs2 hrl)
    · exact ih current sf c s evs hres

/-- C4 counterexample: with dry-run enabled (verbose off), processing
`Movie (2020).mkv` probed at 480 still creates and chmods the output
directory — filesystem mutations the claim rules out — and does not log the
intended final move either, the very move the same run without dry-run
performs. -/
theorem c4_dry_run_counterexample :
    Ev.mkdir "out/main/Movies" ∈
      okTrace (process_movie_file ⟨⟨true, false, true⟩, "out", "in", "Movies"⟩
        "Movie (2020).mkv" 480) ∧
    Ev.chmodDir "out/main/Movies" ∈
      okTrace (process_movie_file ⟨⟨true, false, true⟩, "out", "in", "Movies"⟩
        "Movie (2020).mkv" 480) ∧
    Ev.log (stmtString (Stmt.move "in/Movie (2020) - 480p.mp4"
        "out/main/Movies/Movie (2020) - 480p.mp4")) ∉
      okTrace (process_movie_file ⟨⟨true, false, true⟩, "out", "in", "Movies"⟩
        "Movie (2020).mkv" 480) ∧
    Ev.move "in/Movie (2020) - 480p.mp4" "out/main/Movies/Movie (2020) - 480p.mp4" ∈
      okTrace (process_movie_file ⟨⟨false, false, true⟩, "out", "in", "Movies"⟩
        "Movie (2020).mkv" 480) := by
  refine ⟨by decide, by decide, by decide, by decide⟩

/-- C4 amended: with dry-run enabled, no move, copy, delete, file chmod or
encoder spawn is emitted for any file — everything routed through `_run` is
suppressed and the encoder branch logs its compiled arguments instead
(shown concretely for the 480 encode of `Movie (2020).mkv`); however the
output-directory creation and directory chmod bypass `_run` and still
execute, prober subprocesses still run, and intended file operations are
logged only when verbose is also set. -/
theorem c4_dry_run_amended :
    (∀ (env : Env) (filename : String) (original : Int),
      env.cfg.dryRun = true →
      ∀ e ∈ okTrace (process_movie_file env filename original),
        isDeferredOp e = false) ∧
    Ev.log ("ffmpeg -i in/Movie (2020).mkv -vf scale=720:-2 -metadata " ++
        "title=Movie -metadata year=2020 in/Movie (2020) - 480p.mp4") ∈
      okTrace (process_movie_file ⟨⟨true, false, true⟩, "out", "in", "Movies"⟩
        "Movie (2020).mkv" 480) := by
  constructor
  · intro env filename original hdry
    by_cases ho : original = -1
    · intro e he
      simp [process_movie_file, ho, okTrace] at he
    · rw [process_movie_file, if_neg ho]
      cases hbn : base_name_of filename with
      | none =>
        intro e he
        simp [okTrace] at he
      | some bn =>
        dsimp only
        cases hrl : rung_loop env original bn video_resolutions original filename with
        | error err =>
          intro e he
          simp [okTrace] at he
        | ok trip =>
          obtain ⟨c, sf, evs⟩ := trip
          dsimp only
          simp only [okTrace]
          refine clean_append (clean_append (clean_append (clean_append ?_ ?_) ?_) ?_) ?_
          · exact rung_loop_dry_clean env original bn hdry video_resolutions
              original filename c sf evs hrl
          · intro e he
            rcases List.mem_cons.mp he with h1 | h1
            · subst h1; rfl
            · simp at h1; subst h1; rfl
          · exact clean_ite _ (runStmt_dry_clean env.cfg _ hdry)
              (runStmt_dry_clean env.cfg _ hdry)
          · exact runStmt_dry_clean env.cfg _ hdry
          · refine clean_ite _ (runStmt_dry_clean env.cfg _ hdry) ?_
            intro e he
            simp at he
  · decide

/-- Instance of the C4 amended theorem: the directory creation found in the
dry-run trace is not a deferred operation. -/
theorem c4_dry_run_witness :
    isDeferredOp (Ev.mkdir "out/main/Movies") = false :=
  c4_dry_run_amended.1 ⟨⟨true, false, true⟩, "out", "in", "Movies"⟩
    "Movie (2020).mkv" 480 rfl (Ev.mkdir "out/main/Movies") (by decide)
